import Mathlib

/-!
Formal model of the core retrieval-augmented-generation pipeline of the
local-rag-chatbot repository (src/app.py, src/modules/document_processor.py,
src/modules/llm_local.py, src/modules/embeddings_local.py,
src/modules/database_local.py).

Python strings are modelled as `List Char`, the floating-point similarity
distances as rationals, and every Python function that the verified claims
touch is translated into an executable Lean definition that follows the
source line by line.
-/

namespace LocalRag


/-- A single-quote character (used to build string constants of the source
without writing a quote inside a string literal). -/

def quoteChar : Char := Char.ofNat 39

/-- ASCII lower-casing of one character, as Python str.lower acts on the
ASCII texts handled by this repository. -/

def lowChar (c : Char) : Char :=
  if 'A' ≤ c ∧ c ≤ 'Z' then Char.ofNat (c.toNat + 32) else c

/-- Python str.lower over a whole string. -/

def lowerStr (s : List Char) : List Char := s.map lowChar

/-- The characters stripped by Python str.strip with no argument. -/

def isPySpace (c : Char) : Bool :=
  c = ' ' || c = '\t' || c = '\n' || c = '\r' || c = '\x0b' || c = '\x0c'

/-- Python str.strip: drop whitespace from both ends. -/

def pyStrip (s : List Char) : List Char :=
  ((s.dropWhile isPySpace).reverse.dropWhile isPySpace).reverse

/-- Python substring test `needle in hay`. -/

def isSubstring (needle hay : List Char) : Bool :=
  hay.tails.any (fun t => needle.isPrefixOf t)

/-- Python text.split on the two-character blank-line separator, scanning
left to right over non-overlapping occurrences, as used by hybrid_chunking. -/

def splitParas : List Char → List (List Char)
  | [] => [[]]
  | '\n' :: '\n' :: rest => [] :: splitParas rest
  | c :: rest =>
    match splitParas rest with
    | [] => [[c]]
    | h :: t => (c :: h) :: t

/-- Sentence-final punctuation of the regular expression
`(?<=[.!?])\s+` used by hybrid_chunking. -/

def isSentEnd (c : Char) : Bool := c = '.' || c = '!' || c = '?'

/-- Whether the last character of the accumulated sentence is
sentence-final punctuation. -/

def lastIsSentEnd (s : List Char) : Bool :=
  match s.getLast? with
  | some c => isSentEnd c
  | none => false

/-- Scanner for the sentence-splitting regular expression of the source (a
lookbehind for sentence-final punctuation followed by one or more whitespace
characters): a boundary is a whitespace run immediately after `.`, `!` or
`?`; the punctuation stays with the preceding sentence and the whitespace
run is consumed.  The Bool flag records that the scanner is inside such a
whitespace run. -/

def sentGo : List Char → Bool → List Char → List (List Char)
  | [], _, current => [current]
  | c :: rest, skipping, current =>
    if skipping then
      if isPySpace c then sentGo rest true []
      else sentGo rest false [c]
    else
      if isPySpace c ∧ lastIsSentEnd current then current :: sentGo rest true []
      else sentGo rest false (current ++ [c])

/-- Python re.split of a chunk at sentence boundaries, as performed by
hybrid_chunking. -/

def sentSplit (s : List Char) : List (List Char) := sentGo s false []

/-- Python tail slice of current_chunk by overlap characters when overlap
is positive, the empty string otherwise. -/

def tailSlice (overlap : Nat) (s : List Char) : List Char :=
  if overlap = 0 then [] else s.drop (s.length - overlap)

/-- The paragraph separator re-inserted between accumulated paragraphs. -/

def paraSep : List Char := ['\n', '\n']

/-- The paragraph-accumulation loop of hybrid_chunking
(document_processor.py lines 164-186).  First argument list: the remaining
paragraphs; second: `current_chunk`. -/

def paraStage (max_size overlap : Nat) : List (List Char) → List Char → List (List Char)
  | [], current =>
    if pyStrip current = [] then [] else [pyStrip current]
  | p :: ps, current =>
    let para := pyStrip p
    if para = [] then paraStage max_size overlap ps current
    else if max_size < current.length + para.length ∧ current ≠ [] then
      pyStrip current ::
        paraStage max_size overlap ps (tailSlice overlap current ++ paraSep ++ para)
    else
      paraStage max_size overlap ps (if current = [] then para else current ++ paraSep ++ para)

/-- The sentence-accumulation loop of hybrid_chunking applied to one
oversized chunk (document_processor.py lines 195-206).  First argument: the
remaining sentences; second: `temp_chunk`. -/

def sentStage (max_size : Nat) : List (List Char) → List Char → List (List Char)
  | [], temp =>
    if pyStrip temp = [] then [] else [pyStrip temp]
  | s :: ss, temp =>
    if max_size < temp.length + s.length ∧ temp ≠ [] then
      pyStrip temp :: sentStage max_size ss s
    else
      sentStage max_size ss (if temp = [] then s else temp ++ ' ' :: s)

/-- Function hybrid_chunking of
document_processor.py: paragraph accumulation with overlap seeding followed
by the sentence-level safety split of any chunk still over `max_size`. -/

def hybrid_chunking (text : List Char) (target_size : Nat := 1500)
    (max_size : Nat := 2000) (overlap : Nat := 200) : List (List Char) :=
  if text = [] then []
  else if text.length ≤ target_size then [text]
  else
    (paraStage max_size overlap (splitParas text) []).flatMap
      (fun c => if c.length ≤ max_size then [c] else sentStage max_size (sentSplit c) [])

/-!
Retrieved chunks and the retriever (app.py lines 773-796, database_local.py)

`search_similar_chunks` always returns dictionaries with the keys chunk_id,
chunk_text, doc_name, chunk_index, page_number and distance, so a retrieved
chunk is modelled as a structure with those fields; the float distance is
modelled as a rational. -/

structure RChunk where
  chunk_id : List Char
  chunk_text : List Char
  doc_name : List Char
  chunk_index : Nat
  page_number : Nat
  distance : ℚ
deriving DecidableEq

/-- Comparison relation of the Python sorts by the distance key. -/

def distLE (a b : RChunk) : Prop := a.distance ≤ b.distance

instance : DecidableRel distLE := fun a b =>
  inferInstanceAs (Decidable (a.distance ≤ b.distance))

instance : IsTotal RChunk distLE := ⟨fun a b => le_total a.distance b.distance⟩

instance : IsTrans RChunk distLE := ⟨fun _ _ _ h1 h2 => le_trans h1 h2⟩

/-- Python sorted with the distance key: a stable sort ascending by
distance (insertion sort is stable, like CPython timsort). -/

def sortByDistance (l : List RChunk) : List RChunk := l.insertionSort distLE

/-- The deduplication loop of app.py lines 786-793: walk the combined list,
keeping a chunk only when its chunk_id has not been seen yet. -/

def dedupeById : List RChunk → List (List Char) → List RChunk
  | [], _ => []
  | c :: cs, seen =>
    if c.chunk_id ∈ seen then dedupeById cs seen
    else c :: dedupeById cs (c.chunk_id :: seen)

/-- app.py lines 786-796: concatenate expanded-query results before
original-query results, deduplicate by chunk_id keeping the first
occurrence, then sort ascending by distance. -/

def retrieverMerge (chunks_expanded chunks_original : List RChunk) : List RChunk :=
  sortByDistance (dedupeById (chunks_expanded ++ chunks_original) [])

/-- Concrete retrieved chunks used only to instantiate proved theorems. -/

def sampleA : RChunk := ⟨"a".toList, "ta".toList, "d".toList, 0, 1, 1⟩

/-- A second concrete retrieved chunk for instantiations. -/

def sampleB : RChunk := ⟨"b".toList, "tb".toList, "d".toList, 1, 1, 2⟩

/-!
Retrieval-step embedding handling (app.py lines 773-783)

`generate_embeddings_for_query` (embeddings_local.py) returns None on
failure, modelled as `Option`; an embedding is a vector of floats, modelled
as a list of rationals.  The code computes both embeddings, then checks only
`query_embedding` (the expanded-query embedding); when it is present, both
vector-index searches are issued, the second with whatever
`original_embedding` holds. -/

/-- Trace of the retrieval step: whether the question was aborted before the
searches, and the arguments of the `search_similar_chunks` calls issued. -/

structure RetrievalTrace where
  aborted : Bool
  searches : List (Option (List ℚ))
deriving DecidableEq

/-- app.py lines 773-783: abort (with no search) only when the
expanded-query embedding is missing; otherwise issue both searches. -/

def retrievalStep (query_embedding original_embedding : Option (List ℚ)) : RetrievalTrace :=
  match query_embedding with
  | none => ⟨true, []⟩
  | some v => ⟨false, [some v, original_embedding]⟩

/-!
The relevance filter (app.py lines 798-894) and the outcome of a question
-/

/-- A character matched by the word regular-expression class. -/

def isWordChar (c : Char) : Bool :=
  (decide ('a' ≤ c) && decide (c ≤ 'z')) || (decide ('A' ≤ c) && decide (c ≤ 'Z')) ||
    (decide ('0' ≤ c) && decide (c ≤ '9')) || decide (c = '_')

/-- Helper of `wordRuns`: maximal runs of word characters, with the run
accumulated so far as second argument. -/

def wordRunsGo : List Char → List Char → List (List Char)
  | [], current => if current = [] then [] else [current]
  | c :: rest, current =>
    if isWordChar c then wordRunsGo rest (current ++ [c])
    else if current = [] then wordRunsGo rest []
    else current :: wordRunsGo rest []

/-- Python re.findall of whole words in the prompt: the maximal runs of
word characters. -/

def wordRuns (s : List Char) : List (List Char) := wordRunsGo s []

/-- The stop-word set of app.py line 804. -/

def stopWords : List (List Char) :=
  [ "what", "how", "when", "where", "which", "who", "why", "will", "does", "is", "are",
    "the", "a", "an", "and", "or", "but", "in", "on", "at", "to", "for", "of", "with",
    "about", "this", "that", "these", "those" ].map String.toList

/-- An upper-case letter of the class `[A-Z]`. -/

def isUpperAZ (c : Char) : Bool := decide ('A' ≤ c) && decide (c ≤ 'Z')

/-- Python re.findall of acronyms in the prompt: the maximal word-character
runs made up of at least two upper-case letters only. -/

def acronymsOf (prompt : List Char) : List (List Char) :=
  (wordRuns prompt).filter (fun w => decide (2 ≤ w.length) && w.all isUpperAZ)

/-- The question keywords of app.py lines 800-810: lower-cased words longer
than 3 characters that are not stop-words, together with the lower-cased
acronyms of the original-case prompt. -/

def questionKeywords (prompt : List Char) : List (List Char) :=
  ((wordRuns prompt).filter
      (fun w => decide (3 < w.length) && decide (lowerStr w ∉ stopWords))).map lowerStr
    ++ (acronymsOf prompt).map lowerStr

/-- Positive keyword_matches count of app.py line 818. -/

def kwAny (kws : List (List Char)) (c : RChunk) : Bool :=
  kws.any (fun kw => isSubstring kw (lowerStr c.chunk_text))

/-- Positive acronym_matches count of app.py line 820: an acronym matches
case-insensitively or verbatim against the original-case chunk text. -/

def acrAny (acrs : List (List Char)) (c : RChunk) : Bool :=
  acrs.any (fun ac =>
    isSubstring (lowerStr ac) (lowerStr c.chunk_text) || isSubstring ac c.chunk_text)

/-- The distance bound of clause (c) of the keyword gate, 0.9. -/

def safetyNetThreshold : ℚ := mkRat 9 10

/-- The main keep-condition of app.py line 823: a keyword match, an acronym
match, or distance below 0.9. -/

def keepMain (kws acrs : List (List Char)) (c : RChunk) : Bool :=
  kwAny kws c || acrAny acrs c || decide (c.distance < safetyNetThreshold)

/-- The keyword-gating loop of app.py lines 814-827; second list argument is
the `filtered_chunks` accumulator. -/

def gateLoop (kws acrs : List (List Char)) : List RChunk → List RChunk → List RChunk
  | [], filtered => filtered
  | c :: cs, filtered =>
    if keepMain kws acrs c then gateLoop kws acrs cs (filtered ++ [c])
    else if filtered.length < 5 ∧ c.distance < 1 then gateLoop kws acrs cs (filtered ++ [c])
    else gateLoop kws acrs cs filtered

/-- The positional keep-condition the keyword gate implements on a
distance-sorted candidate list: the main condition, or position below 5 with
distance below 1.0. -/

def idxKeep (kws acrs : List (List Char)) (i : Nat) (c : RChunk) : Bool :=
  keepMain kws acrs c || (decide (i < 5) && decide (c.distance < 1))

/-- Filter by the positional keep-condition, the Nat argument being the
position of the head of the list within the full candidate list. -/

def idxFilter (kws acrs : List (List Char)) : Nat → List RChunk → List RChunk
  | _, [] => []
  | i, c :: cs =>
    if idxKeep kws acrs i c then c :: idxFilter kws acrs (i + 1) cs
    else idxFilter kws acrs (i + 1) cs

/-- The first backfill of app.py lines 831-837: re-scan the best 15
candidates and append those with a keyword match that are not yet kept. -/

def backfillKw (kws : List (List Char)) : List RChunk → List RChunk → List RChunk
  | [], filtered => filtered
  | c :: cs, filtered =>
    if c ∉ filtered ∧ kwAny kws c then backfillKw kws cs (filtered ++ [c])
    else backfillKw kws cs filtered

/-- The second backfill of app.py lines 840-845: append best-distance
candidates not yet kept, stopping right after the kept list reaches 10. -/

def bestFill : List RChunk → List RChunk → List RChunk
  | [], filtered => filtered
  | c :: cs, filtered =>
    if c ∈ filtered then bestFill cs filtered
    else if 10 ≤ (filtered ++ [c]).length then filtered ++ [c]
    else bestFill cs (filtered ++ [c])

/-- The whole keyword-gating stage of app.py lines 812-847 (main loop, the
two conditional backfills, and the cap at 30). -/

def gatePipeline (kws acrs : List (List Char)) (similar : List RChunk) : List RChunk :=
  let f := gateLoop kws acrs similar []
  let f2 :=
    if f.length < 3 then
      let f1 := backfillKw kws (similar.take 15) f
      if f1.length < 5 then bestFill similar f1 else f1
    else f
  f2.take 30

/-- The general-question phrases of app.py lines 860-864. -/

def generalQuestionPhrases : List (List Char) :=
  [ "what is this", "what is the", "what does this", "what is it about", "about this",
    "tell me about", "what is", "describe this", "explain this" ].map String.toList

/-- Predicate is_general_question of app.py lines 860-864. -/

def isGeneralQuestion (prompt : List Char) : Bool :=
  generalQuestionPhrases.any (fun p => isSubstring p (lowerStr prompt))

/-- The primary similarity threshold, 1.2 (app.py line 852). -/

def primaryThreshold : ℚ := mkRat 12 10

/-- The fallback similarity threshold, 1.8 (app.py line 853). -/

def fallbackThreshold : ℚ := mkRat 18 10

/-- Value of good_chunks once the adaptive-threshold branching of app.py lines
855-873 is over: the candidates below 1.2 when any exist, otherwise the
candidates below 1.8 (both the general-question branch and the
specific-question branch compute the same fallback list). -/

def goodChunks (similar : List RChunk) : List RChunk :=
  if similar.filter (fun c => decide (c.distance < primaryThreshold)) = [] then
    similar.filter (fun c => decide (c.distance < fallbackThreshold))
  else similar.filter (fun c => decide (c.distance < primaryThreshold))

/-- The adaptive-threshold stage of app.py lines 849-894 applied to the
candidate list: `none` is the early return of lines 874-888 (warning plus
suggestions, on the specific-question branch with nothing below 1.8);
otherwise the surviving chunks after the minimum-length filter (strictly
more than 50 characters) and the cap at 15. -/

def thresholdStage (prompt : List Char) (similar : List RChunk) : Option (List RChunk) :=
  if similar = [] then some []
  else if goodChunks similar = [] ∧ isGeneralQuestion prompt = false then none
  else some (((goodChunks similar).filter (fun c => decide (50 < c.chunk_text.length))).take 15)

/-- The terminal outcome of one question on the query path of app.py lines
849-926: the early-return refusal, the canned no-relevant-information
response of line 914, or a call of generate_rag_response with the re-sorted
context of lines 916-920. -/

inductive QueryOutcome where
  | refusedLowConfidence : QueryOutcome
  | noRelevantInfo : QueryOutcome
  | answered : List RChunk → QueryOutcome
deriving DecidableEq

/-- Outcome of the threshold stage and the dispatch of app.py lines 912-920. -/

def queryOutcome (prompt : List Char) (similar : List RChunk) : QueryOutcome :=
  match thresholdStage prompt similar with
  | none => QueryOutcome.refusedLowConfidence
  | some [] => QueryOutcome.noRelevantInfo
  | some (c :: cs) => QueryOutcome.answered (sortByDistance (c :: cs))

/-- The query pipeline from the distance-sorted candidate list to the
outcome: keyword gating runs only when the question yields at least one
keyword (app.py line 813), then the adaptive-threshold stage decides. -/

def chatQueryOutcome (prompt : List Char) (candidates : List RChunk) : QueryOutcome :=
  if questionKeywords prompt = [] then queryOutcome prompt candidates
  else queryOutcome prompt (gatePipeline (questionKeywords prompt) (acronymsOf prompt) candidates)

/-- The short low-distance candidate of the C2 counterexample. -/

def cexShort : RChunk := ⟨"c1".toList, "short".toList, "doc".toList, 0, 1, mkRat 1 2⟩

/-!
The answer synthesizer (llm_local.py, generate_rag_response lines 14-143)

The deterministic front of generate_rag_response — chunk selection, context
assembly and prompt construction up to the unconditional `requests.post`
call — is modelled below.  The function has no empty-context check: for any
input it builds the full prompt and posts it. -/

/-- The complete-steps trigger phrases of llm_local.py lines 31-34. -/

def completeStepsPhrases : List (List Char) :=
  [ "complete steps", "all steps", "full steps", "entire process",
    "complete process", "all the steps", "step by step" ].map String.toList

/-- Predicate is_complete_steps_question of llm_local.py lines 31-34. -/

def isCompleteStepsQuestion (question : List Char) : Bool :=
  completeStepsPhrases.any (fun p => isSubstring p (lowerStr question))

/-- The SQL-question vocabulary of llm_local.py lines 37-40. -/

def sqlQuestionKeywords : List (List Char) :=
  [ "sql", "create user", "grant", "database user", "schema",
    "privileges", "minimally privileged", "sql commands" ].map String.toList

/-- Predicate is_sql_question of llm_local.py lines 37-40. -/

def isSqlQuestion (question : List Char) : Bool :=
  sqlQuestionKeywords.any (fun p => isSubstring p (lowerStr question))

/-- The SQL-statement vocabulary used to promote chunks
(llm_local.py line 47). -/

def sqlChunkKeywords : List (List Char) :=
  [ "create user", "grant", "identified by", "tablespace", "alter user",
    "sql*plus" ].map String.toList

/-- Whether a chunk text contains SQL-statement vocabulary
(llm_local.py line 48). -/

def chunkHasSql (c : RChunk) : Bool :=
  sqlChunkKeywords.any (fun kw => isSubstring kw (lowerStr c.chunk_text))

/-- Value of top_chunks of llm_local.py lines 43-54: in complete-steps/SQL mode the
top 7 distance-sorted chunks with the SQL-bearing ones moved to the front;
in standard mode the top 3. -/

def selectedChunks (question : List Char) (context_chunks : List RChunk) : List RChunk :=
  if isCompleteStepsQuestion question || isSqlQuestion question then
    ((sortByDistance context_chunks).take 7).filter chunkHasSql ++
      ((sortByDistance context_chunks).take 7).filter
        (fun c => decide (c ∉ ((sortByDistance context_chunks).take 7).filter chunkHasSql))
  else (sortByDistance context_chunks).take 3

/-- The chunks whose text the context-assembly loop of llm_local.py lines
56-79 embeds into the prompt: all of `top_chunks` in complete-steps/SQL
mode, only `top_chunks[0]` in standard mode. -/

def contextChunks (question : List Char) (context_chunks : List RChunk) : List RChunk :=
  if isCompleteStepsQuestion question || isSqlQuestion question then
    selectedChunks question context_chunks
  else (selectedChunks question context_chunks).take 1

/-- Decimal rendering of a page number or source index. -/

def natStr (n : Nat) : List Char := Nat.toDigits 10 n

/-- One labelled source section of the complete-steps/SQL-mode context
(llm_local.py lines 61-71), for the chunk at 1-based position `i`. -/

def sqlModeSection (i : Nat) (c : RChunk) : List Char :=
  (if i = 1 then
    "\n=== PRIMARY SOURCE - MOST RELEVANT (Page ".toList ++ natStr c.page_number ++
      ", ".toList ++ c.doc_name ++ ") ===\n".toList
   else
    "\n=== ADDITIONAL SOURCE ".toList ++ natStr i ++ " (Page ".toList ++
      natStr c.page_number ++ ", ".toList ++ c.doc_name ++ ") ===\n".toList) ++
    c.chunk_text ++ "\n".toList ++
    "=== END SOURCE ".toList ++ natStr i ++ " ===\n".toList

/-- The enumerated fold of llm_local.py line 61 over the selected chunks. -/

def sqlSections : Nat → List RChunk → List Char
  | _, [] => []
  | i, c :: cs => sqlModeSection i c ++ sqlSections (i + 1) cs

/-- The single primary-source section of standard mode
(llm_local.py lines 74-79). -/

def stdSection (c : RChunk) : List Char :=
  "\n=== PRIMARY SOURCE - MOST RELEVANT (Page ".toList ++ natStr c.page_number ++
    ") ===\n".toList ++ c.chunk_text ++ "\n".toList ++
    "=== END PRIMARY SOURCE ===\n".toList

/-- Value of context_text of llm_local.py lines 56-79.  With an empty chunk list
both modes leave it empty: the SQL-mode loop runs zero times and the
standard branch is guarded by `if top_chunks`. -/

def contextText (question : List Char) (context_chunks : List RChunk) : List Char :=
  if isCompleteStepsQuestion question || isSqlQuestion question then
    sqlSections 1 (selectedChunks question context_chunks)
  else
    match selectedChunks question context_chunks with
    | [] => []
    | c :: _ => stdSection c

/-- The opening of both system prompts of llm_local.py lines 83-108, up to
the interpolated context text. -/

def assistantIntro : List Char :=
  "You are a helpful documentation assistant. Answer the user".toList ++ [quoteChar] ++
    "s question using the source information provided below.\n\nSOURCE INFORMATION:\n".toList

/-- The instruction block of the complete-steps/SQL-mode system prompt
(llm_local.py lines 88-94). -/

def sqlModeInstr : List Char :=
  ("\n\nINSTRUCTIONS:\n- Use the source information above to provide a complete answer\n" ++
   "- If the source contains SQL commands, include them in code blocks (```sql ... ```)\n" ++
   "- If the source contains steps, list them in order\n" ++
   "- Combine information from multiple sources if needed\n" ++
   "- Do NOT repeat these instructions in your answer\n" ++
   "- Start your answer directly without preamble").toList

/-- The instruction block of the standard system prompt
(llm_local.py lines 102-108). -/

def stdModeInstr : List Char :=
  ("\n\nINSTRUCTIONS:\n- Use the source information above to answer the question completely\n" ++
   "- If the source contains SQL commands, include them in code blocks (```sql ... ```)\n" ++
   "- If the source contains steps, list them in order\n" ++
   "- Provide a clear, complete answer\n" ++
   "- Do NOT repeat these instructions in your answer\n" ++
   "- Start your answer directly without preamble").toList

/-- The label preceding the literal user question in the full prompt
(llm_local.py line 113). -/

def userQuestionLabel : List Char := "\n\nUSER QUESTION: ".toList

/-- The closing instruction of the full prompt (llm_local.py line 115). -/

def finalInstr : List Char :=
  ("\n\nProvide a clear, complete answer based on the source(s) above. " ++
   "Do NOT repeat these instructions. Start your answer directly:").toList

/-- The full prompt generate_rag_response posts to the generation backend
(llm_local.py lines 111-143); the post happens for every input, with no
empty-context guard. -/

def ollamaRequest (question : List Char) (context_chunks : List RChunk) : List Char :=
  assistantIntro ++ contextText question context_chunks ++
    (if isCompleteStepsQuestion question || isSqlQuestion question then sqlModeInstr
     else stdModeInstr) ++
    userQuestionLabel ++ question ++ finalInstr

/-!
Chat-input classification (app.py lines 646-673)
-/

/-- The role of one conversation turn. -/

inductive ChatRole where
  | user : ChatRole
  | assistant : ChatRole
deriving DecidableEq

/-- One entry of `st.session_state.messages`. -/

structure ChatTurn where
  role : ChatRole
  content : List Char
deriving DecidableEq

/-- The question words of app.py line 651. -/

def questionStartWords : List (List Char) :=
  [ "what", "how", "where", "when", "why", "who", "which", "explain", "describe",
    "tell me", "show me" ].map String.toList

/-- The feedback phrases of app.py lines 655-658. -/

def feedbackPhrases : List (List Char) :=
  [ "not complete".toList, "incomplete".toList, "wrong".toList, "incorrect".toList,
    "not right".toList, "doesn".toList ++ quoteChar :: "t work".toList,
    "not working".toList, "error".toList, "fix".toList, "help".toList,
    "answer is not".toList ]

/-- Lower-cased stripped prompt of app.py line 648. -/

def promptLower (prompt : List Char) : List Char := pyStrip (lowerStr prompt)

/-- Predicate is_question of app.py line 652: the lowered, stripped prompt starts
with a question word, or the raw prompt contains a question mark. -/

def isQuestionInput (prompt : List Char) : Bool :=
  questionStartWords.any (fun w => w.isPrefixOf (promptLower prompt)) || prompt.contains '?'

/-- Predicate is_feedback of app.py line 659. -/

def isFeedbackInput (prompt : List Char) : Bool :=
  feedbackPhrases.any (fun p => isSubstring p (promptLower prompt)) && !(isQuestionInput prompt)

/-- The front of the chat handler (app.py lines 646-673): on feedback it
returns before touching the history or the pipeline (`none`); otherwise it
appends the user turn and hands the prompt to the retrieval pipeline. -/

def chatDispatch (prompt : List Char) (messages : List ChatTurn) :
    List ChatTurn × Option (List Char) :=
  if isFeedbackInput prompt then (messages, none)
  else (messages ++ [⟨ChatRole.user, prompt⟩], some prompt)

/-!
Theorems.

The claim-level theorems, their helper lemmas, the counterexamples and the
concrete-instance witnesses, in pipeline order: chunker, retriever,
relevance filter, synthesizer, chat-input classification. -/

theorem dropWhile_len_le (p : Char → Bool) : ∀ l : List Char, (l.dropWhile p).length ≤ l.length
  | [] => Nat.le_refl 0
  | c :: rest => by
    by_cases h : p c
    · simpa [List.dropWhile, h] using Nat.le_succ_of_le (dropWhile_len_le p rest)
    · simp [List.dropWhile, h]

theorem pyStrip_len_le (s : List Char) : (pyStrip s).length ≤ s.length := by
  unfold pyStrip
  calc ((s.dropWhile isPySpace).reverse.dropWhile isPySpace).reverse.length
      = ((s.dropWhile isPySpace).reverse.dropWhile isPySpace).length := List.length_reverse _
    _ ≤ (s.dropWhile isPySpace).reverse.length := dropWhile_len_le _ _
    _ = (s.dropWhile isPySpace).length := List.length_reverse _
    _ ≤ s.length := dropWhile_len_le _ _

/-- Size invariant of the sentence-accumulation loop: every emitted chunk is
at most one character over `max_size` (the greedy check ignores the single
joining space), except for the stripped form of an individual sentence that
is itself longer than that. -/

theorem sentStage_bound (m : Nat) (L : List (List Char)) :
    ∀ (ss : List (List Char)) (temp : List Char),
      (∀ s ∈ ss, s ∈ L) →
      (temp.length ≤ m + 1 ∨ temp ∈ L) →
      ∀ out ∈ sentStage m ss temp,
        out.length ≤ m + 1 ∨ ∃ s ∈ L, out = pyStrip s ∧ m + 1 < s.length := by
  intro ss
  induction ss with
  | nil =>
    intro temp _ hinv out hout
    by_cases hweak : temp.length ≤ m + 1
    · simp only [sentStage] at hout
      split at hout
      · simp at hout
      · simp at hout
        exact Or.inl (hout ▸ le_trans (pyStrip_len_le temp) hweak)
    · rcases hinv with h | hmem
      · exact absurd h hweak
      · simp only [sentStage] at hout
        split at hout
        · simp at hout
        · simp at hout
          exact Or.inr ⟨temp, hmem, hout, Nat.lt_of_not_le hweak⟩
  | cons s ss ih =>
    intro temp hss hinv out hout
    simp only [sentStage] at hout
    split at hout
    · rename_i hsplit
      rcases List.mem_cons.mp hout with hout | hout
      · -- the emitted chunk is pyStrip temp
        by_cases hweak : temp.length ≤ m + 1
        · exact Or.inl (hout ▸ le_trans (pyStrip_len_le temp) hweak)
        · rcases hinv with h | hmem
          · exact absurd h hweak
          · exact Or.inr ⟨temp, hmem, hout, Nat.lt_of_not_le hweak⟩
      · -- recursion with temp := s
        exact ih s (fun x hx => hss x (List.mem_cons_of_mem _ hx))
          (Or.inr (hss s (List.mem_cons_self _ _))) out hout
    · rename_i hsplit
      -- accumulate: either temp was empty, or the join stays within m + 1
      refine ih _ (fun x hx => hss x (List.mem_cons_of_mem _ hx)) ?_ out hout
      by_cases ht : temp = []
      · simp only [ht, if_pos rfl]
        exact Or.inr (hss s (List.mem_cons_self _ _))
      · simp only [if_neg ht]
        left
        have hle : temp.length + s.length ≤ m := by
          rcases Decidable.not_and_iff_or_not.mp hsplit with h | h
          · exact Nat.le_of_not_lt h
          · exact absurd ht (by simpa using h)
        simp only [List.length_append, List.length_cons]
        omega

/-- C6 (confirmed): `hybrid_chunking("")` is empty and any non-empty text no
longer than `target_size` is passed through as the single unmodified chunk. -/

theorem chunk_small_passthrough (text : List Char) (t m o : Nat)
    (hne : text ≠ []) (hle : text.length ≤ t) :
    hybrid_chunking [] t m o = [] ∧ hybrid_chunking text t m o = [text] := by
  constructor
  · rfl
  · unfold hybrid_chunking
    rw [if_neg hne, if_pos hle]

theorem chunk_small_passthrough_witness :
    ("ab".toList ≠ [] ∧ ("ab".toList).length ≤ 1500) ∧
      hybrid_chunking [] 1500 2000 200 = [] ∧
        hybrid_chunking ("ab".toList) 1500 2000 200 = ["ab".toList] :=
  ⟨⟨by decide, by decide⟩, chunk_small_passthrough ("ab".toList) 1500 2000 200 (by decide) (by decide)⟩

/-- C5 counterexample: with `overlap = 0 < max_size = 10 < len(text) = 11`
(and `target_size = 1`), the two-sentence text `aaaa. bbbb.` is returned as
one chunk of length 11 > max_size, because the greedy sentence accumulator
compares `len(temp_chunk) + len(sentence)` with `max_size` but then joins
with an extra space character.  The chunk is not a single sentence: its
sentence split has two elements. -/

theorem chunk_size_bound_cex :
    hybrid_chunking ("aaaa. bbbb.".toList) 1 10 0 = ["aaaa. bbbb.".toList] ∧
      ("aaaa. bbbb.".toList).length = 11 ∧
      (0 < 10 ∧ 10 < ("aaaa. bbbb.".toList).length) ∧
      sentSplit ("aaaa. bbbb.".toList) = ["aaaa.".toList, "bbbb.".toList] := by
  decide

/-- C5 as amended: under `overlap < max_size < len(text)` and additionally
`target_size < len(text)` (otherwise the whole text is returned unsplit),
every returned chunk has length at most `max_size + 1` — one more than the
claimed bound, because the greedy sentence join does not count its joining
space — unless it is the stripped form of a single sentence of the sentence
split of one oversized paragraph-stage chunk, that sentence being itself
longer than `max_size + 1`. -/

theorem chunk_size_bound_amended (text : List Char) (t m o : Nat)
    (ho : o < m) (hm : m < text.length) (ht : t < text.length) :
    ∀ out ∈ hybrid_chunking text t m o,
      out.length ≤ m + 1 ∨
        ∃ c ∈ paraStage m o (splitParas text) [],
          ∃ s ∈ sentSplit c, out = pyStrip s ∧ m + 1 < s.length := by
  intro out hout
  have hne : text ≠ [] := by
    intro h
    rw [h] at hm
    simp at hm
  have hnt : ¬ text.length ≤ t := Nat.not_le_of_lt ht
  unfold hybrid_chunking at hout
  rw [if_neg hne, if_neg hnt] at hout
  rcases List.mem_flatMap.mp hout with ⟨c, hc, hoc⟩
  by_cases hcm : c.length ≤ m
  · rw [if_pos hcm] at hoc
    simp at hoc
    exact Or.inl (hoc ▸ le_trans hcm (Nat.le_succ m))
  · rw [if_neg hcm] at hoc
    rcases sentStage_bound m (sentSplit c) (sentSplit c) []
        (fun _ hx => hx) (Or.inl (by simp)) out hoc with h | ⟨s, hs, hrw, hlen⟩
    · exact Or.inl h
    · exact Or.inr ⟨c, hc, s, hs, hrw, hlen⟩

theorem chunk_size_bound_amended_witness :
    (0 < 10 ∧ 10 < ("aaaa. bbbb.".toList).length ∧ 1 < ("aaaa. bbbb.".toList).length) ∧
      ∀ out ∈ hybrid_chunking ("aaaa. bbbb.".toList) 1 10 0,
        out.length ≤ 10 + 1 ∨
          ∃ c ∈ paraStage 10 0 (splitParas ("aaaa. bbbb.".toList)) [],
            ∃ s ∈ sentSplit c, out = pyStrip s ∧ 10 + 1 < s.length :=
  ⟨⟨by decide, by decide, by decide⟩,
    chunk_size_bound_amended ("aaaa. bbbb.".toList) 1 10 0 (by decide) (by decide) (by decide)⟩

theorem dedupeById_spec : ∀ (l : List RChunk) (seen : List (List Char)),
    ∀ c ∈ dedupeById l seen,
      c.chunk_id ∉ seen ∧ l.find? (fun x => decide (x.chunk_id = c.chunk_id)) = some c
  | [], _, c, hc => by simp [dedupeById] at hc
  | a :: l, seen, c, hc => by
    by_cases ha : a.chunk_id ∈ seen
    · rw [dedupeById, if_pos ha] at hc
      obtain ⟨hns, hfind⟩ := dedupeById_spec l seen c hc
      refine ⟨hns, ?_⟩
      have hne : a.chunk_id ≠ c.chunk_id := fun h => hns (h ▸ ha)
      simp only [List.find?, decide_eq_false hne]
      exact hfind
    · rw [dedupeById, if_neg ha] at hc
      rcases List.mem_cons.mp hc with rfl | hc
      · exact ⟨ha, by simp [List.find?]⟩
      · obtain ⟨hns, hfind⟩ := dedupeById_spec l (a.chunk_id :: seen) c hc
        have hne : a.chunk_id ≠ c.chunk_id := fun h =>
          hns (h ▸ List.mem_cons_self _ _)
        refine ⟨fun h => hns (List.mem_cons_of_mem _ h), ?_⟩
        simp only [List.find?, decide_eq_false hne]
        exact hfind

theorem dedupeById_nodup : ∀ (l : List RChunk) (seen : List (List Char)),
    ((dedupeById l seen).map (fun c => c.chunk_id)).Nodup ∧
      ∀ i ∈ (dedupeById l seen).map (fun c => c.chunk_id), i ∉ seen
  | [], _ => by simp [dedupeById]
  | a :: l, seen => by
    by_cases ha : a.chunk_id ∈ seen
    · rw [dedupeById, if_pos ha]
      exact dedupeById_nodup l seen
    · rw [dedupeById, if_neg ha]
      obtain ⟨hnd, hout⟩ := dedupeById_nodup l (a.chunk_id :: seen)
      refine ⟨List.nodup_cons.mpr ⟨fun h => ?_, hnd⟩, ?_⟩
      · exact hout _ h (List.mem_cons_self _ _)
      · intro i hi
        simp only [List.map_cons, List.mem_cons] at hi
        rcases hi with rfl | hi
        · exact ha
        · exact fun h => hout i hi (List.mem_cons_of_mem _ h)

/-- C7 (confirmed): the merged retriever output is sorted ascending by
distance, has no two entries with the same chunk_id, and every entry is the
first occurrence of its chunk_id in the concatenation of expanded-query
results followed by original-query results. -/

theorem retriever_merge_ok (chunks_expanded chunks_original : List RChunk) :
    (retrieverMerge chunks_expanded chunks_original).Pairwise distLE ∧
      ((retrieverMerge chunks_expanded chunks_original).map (fun c => c.chunk_id)).Nodup ∧
      ∀ c ∈ retrieverMerge chunks_expanded chunks_original,
        (chunks_expanded ++ chunks_original).find?
            (fun x => decide (x.chunk_id = c.chunk_id)) = some c := by
  refine ⟨List.sorted_insertionSort distLE _, ?_, ?_⟩
  · have hperm : ((dedupeById (chunks_expanded ++ chunks_original) []).insertionSort
        distLE).Perm (dedupeById (chunks_expanded ++ chunks_original) []) :=
      List.perm_insertionSort distLE _
    exact ((hperm.map (fun c => c.chunk_id)).symm).nodup
      (dedupeById_nodup (chunks_expanded ++ chunks_original) []).1
  · intro c hc
    have hmem : c ∈ dedupeById (chunks_expanded ++ chunks_original) [] :=
      (List.perm_insertionSort distLE _).mem_iff.mp hc
    exact (dedupeById_spec _ [] c hmem).2

theorem retriever_merge_ok_witness :
    (retrieverMerge [sampleA, sampleB] [sampleA]).Pairwise distLE ∧
      ((retrieverMerge [sampleA, sampleB] [sampleA]).map (fun c => c.chunk_id)).Nodup ∧
      ∀ c ∈ retrieverMerge [sampleA, sampleB] [sampleA],
        ([sampleA, sampleB] ++ [sampleA]).find?
            (fun x => decide (x.chunk_id = c.chunk_id)) = some c :=
  retriever_merge_ok [sampleA, sampleB] [sampleA]

/-- C4 counterexample: when only the original-question embedding fails, the
retrieval is not aborted and two vector-index searches are still issued (the
second one with the missing embedding), contradicting the claim that either
failure aborts with no search. -/

theorem embedding_failure_cex :
    (retrievalStep (some [1]) none).aborted = false ∧
      (retrievalStep (some [1]) none).searches = [some [1], none] := by
  decide

/-- C4 as amended: only a failure of the expanded-query embedding aborts the
retrieval, and then no vector-index search is issued for either query. -/

theorem embedding_failure_amended (original_embedding : Option (List ℚ)) :
    (retrievalStep none original_embedding).aborted = true ∧
      (retrievalStep none original_embedding).searches = [] :=
  ⟨rfl, rfl⟩

theorem gateLoop_eq_idxFilter (kws acrs : List (List Char)) :
    ∀ (cs filtered : List RChunk) (j : Nat),
      cs.Pairwise distLE →
      (filtered.length = j ∨ (5 ≤ filtered.length ∧ 5 ≤ j) ∨ ∀ c ∈ cs, ¬ c.distance < 1) →
      gateLoop kws acrs cs filtered = filtered ++ idxFilter kws acrs j cs
  | [], filtered, j, _, _ => by simp [gateLoop, idxFilter]
  | c :: cs, filtered, j, hp, hinv => by
    have hp' := (List.pairwise_cons.mp hp).2
    have hhead := (List.pairwise_cons.mp hp).1
    have hinv3 : (∀ x ∈ c :: cs, ¬ x.distance < 1) → ∀ x ∈ cs, ¬ x.distance < 1 :=
      fun h x hx => h x (List.mem_cons_of_mem _ hx)
    by_cases hmain : keepMain kws acrs c = true
    · have hkeep : idxKeep kws acrs j c = true := by simp [idxKeep, hmain]
      have hnew : (filtered ++ [c]).length = j + 1 ∨
          (5 ≤ (filtered ++ [c]).length ∧ 5 ≤ j + 1) ∨ ∀ x ∈ cs, ¬ x.distance < 1 := by
        rcases hinv with h | ⟨h1, h2⟩ | h
        · exact Or.inl (by simp [h])
        · exact Or.inr (Or.inl ⟨by simp; omega, by omega⟩)
        · exact Or.inr (Or.inr (hinv3 h))
      rw [gateLoop, if_pos hmain, idxFilter, if_pos hkeep,
        gateLoop_eq_idxFilter kws acrs cs (filtered ++ [c]) (j + 1) hp' hnew]
      simp
    · by_cases hd : c.distance < 1
      · by_cases hlen : filtered.length < 5
        · -- kept through the running-count condition; position is then below 5
          have hj : j < 5 := by
            rcases hinv with h | ⟨h1, _⟩ | h
            · omega
            · omega
            · exact absurd hd (h c (List.mem_cons_self _ _))
          have hkeep : idxKeep kws acrs j c = true := by
            simp [idxKeep, hmain, hd, hj]
          have hfl : filtered.length = j := by
            rcases hinv with h | ⟨h1, _⟩ | h
            · exact h
            · omega
            · exact absurd hd (h c (List.mem_cons_self _ _))
          have hnew : (filtered ++ [c]).length = j + 1 ∨
              (5 ≤ (filtered ++ [c]).length ∧ 5 ≤ j + 1) ∨ ∀ x ∈ cs, ¬ x.distance < 1 :=
            Or.inl (by simp [hfl])
          rw [gateLoop, if_neg hmain, if_pos ⟨hlen, hd⟩, idxFilter, if_pos hkeep,
            gateLoop_eq_idxFilter kws acrs cs (filtered ++ [c]) (j + 1) hp' hnew]
          simp
        · -- dropped: five chunks already kept, so the position is at least 5
          have hj : 5 ≤ j := by
            rcases hinv with h | ⟨_, h2⟩ | h
            · omega
            · exact h2
            · exact absurd hd (h c (List.mem_cons_self _ _))
          have hkeep : ¬ idxKeep kws acrs j c = true := by
            simp [idxKeep, hmain, hd]
            omega
          have hnew : filtered.length = j + 1 ∨
              (5 ≤ filtered.length ∧ 5 ≤ j + 1) ∨ ∀ x ∈ cs, ¬ x.distance < 1 :=
            Or.inr (Or.inl ⟨by omega, by omega⟩)
          rw [gateLoop, if_neg hmain, if_neg (fun hh => hlen hh.1), idxFilter, if_neg hkeep,
            gateLoop_eq_idxFilter kws acrs cs filtered (j + 1) hp' hnew]
      · -- dropped: the distance is not below 1, and the list is sorted, so no
        -- later candidate is below 1 either
        have hkeep : ¬ idxKeep kws acrs j c = true := by
          simp [idxKeep, hmain, hd]
        have hnew : filtered.length = j + 1 ∨
            (5 ≤ filtered.length ∧ 5 ≤ j + 1) ∨ ∀ x ∈ cs, ¬ x.distance < 1 :=
          Or.inr (Or.inr (fun x hx hxd => hd (lt_of_le_of_lt (hhead x hx) hxd)))
        rw [gateLoop, if_neg hmain, if_neg (fun hh => hd hh.2), idxFilter, if_neg hkeep,
          gateLoop_eq_idxFilter kws acrs cs filtered (j + 1) hp' hnew]

/-- C8 (confirmed): on a distance-sorted candidate list, when the question
yields at least one keyword, the keyword-gating loop keeps exactly the
candidates that satisfy the main condition (keyword substring match,
verbatim acronym match, or distance below 0.9) or sit among the first 5
positions with distance below 1.0 — and it keeps them in order. -/

theorem keyword_gate_iff (prompt : List Char) (cands : List RChunk)
    (hkw : questionKeywords prompt ≠ [])
    (hsorted : cands.Pairwise distLE) :
    gateLoop (questionKeywords prompt) (acronymsOf prompt) cands [] =
      idxFilter (questionKeywords prompt) (acronymsOf prompt) 0 cands := by
  simpa using
    gateLoop_eq_idxFilter (questionKeywords prompt) (acronymsOf prompt)
      cands [] 0 hsorted (Or.inl rfl)

theorem keyword_gate_iff_witness :
    (questionKeywords ("database user".toList) ≠ [] ∧
      [sampleA, sampleB].Pairwise distLE) ∧
      gateLoop (questionKeywords ("database user".toList))
          (acronymsOf ("database user".toList)) [sampleA, sampleB] [] =
        idxFilter (questionKeywords ("database user".toList))
          (acronymsOf ("database user".toList)) 0 [sampleA, sampleB] :=
  ⟨⟨by decide, by decide⟩,
    keyword_gate_iff ("database user".toList) [sampleA, sampleB] (by decide) (by decide)⟩

theorem gateLoop_subset (kws acrs : List (List Char)) :
    ∀ (cs acc : List RChunk), ∀ x ∈ gateLoop kws acrs cs acc, x ∈ acc ∨ x ∈ cs
  | [], acc, x, hx => by
    rw [gateLoop] at hx
    exact Or.inl hx
  | c :: cs, acc, x, hx => by
    have step : x ∈ gateLoop kws acrs cs (acc ++ [c]) → x ∈ acc ∨ x ∈ c :: cs := by
      intro hx2
      rcases gateLoop_subset kws acrs cs (acc ++ [c]) x hx2 with h | h
      · rcases List.mem_append.mp h with h | h
        · exact Or.inl h
        · simp only [List.mem_singleton] at h
          exact Or.inr (h ▸ List.mem_cons_self _ _)
      · exact Or.inr (List.mem_cons_of_mem _ h)
    rw [gateLoop] at hx
    by_cases h1 : keepMain kws acrs c = true
    · exact step (by rwa [if_pos h1] at hx)
    · rw [if_neg h1] at hx
      by_cases h2 : acc.length < 5 ∧ c.distance < 1
      · exact step (by rwa [if_pos h2] at hx)
      · rw [if_neg h2] at hx
        rcases gateLoop_subset kws acrs cs acc x hx with h | h
        · exact Or.inl h
        · exact Or.inr (List.mem_cons_of_mem _ h)

theorem backfillKw_subset (kws : List (List Char)) :
    ∀ (pool acc : List RChunk), ∀ x ∈ backfillKw kws pool acc, x ∈ acc ∨ x ∈ pool
  | [], acc, x, hx => by
    rw [backfillKw] at hx
    exact Or.inl hx
  | c :: cs, acc, x, hx => by
    have step : x ∈ acc ++ [c] ∨ x ∈ cs → x ∈ acc ∨ x ∈ c :: cs := by
      intro h
      rcases h with h | h
      · rcases List.mem_append.mp h with h | h
        · exact Or.inl h
        · simp only [List.mem_singleton] at h
          exact Or.inr (h ▸ List.mem_cons_self _ _)
      · exact Or.inr (List.mem_cons_of_mem _ h)
    rw [backfillKw] at hx
    by_cases h1 : c ∉ acc ∧ kwAny kws c = true
    · rw [if_pos h1] at hx
      exact step (backfillKw_subset kws cs (acc ++ [c]) x hx)
    · rw [if_neg h1] at hx
      rcases backfillKw_subset kws cs acc x hx with h | h
      · exact Or.inl h
      · exact Or.inr (List.mem_cons_of_mem _ h)

theorem bestFill_subset :
    ∀ (pool acc : List RChunk), ∀ x ∈ bestFill pool acc, x ∈ acc ∨ x ∈ pool
  | [], acc, x, hx => by
    rw [bestFill] at hx
    exact Or.inl hx
  | c :: cs, acc, x, hx => by
    have push : x ∈ acc ++ [c] → x ∈ acc ∨ x ∈ c :: cs := by
      intro h
      rcases List.mem_append.mp h with h | h
      · exact Or.inl h
      · simp only [List.mem_singleton] at h
        exact Or.inr (h ▸ List.mem_cons_self _ _)
    rw [bestFill] at hx
    by_cases h1 : c ∈ acc
    · rw [if_pos h1] at hx
      rcases bestFill_subset cs acc x hx with h | h
      · exact Or.inl h
      · exact Or.inr (List.mem_cons_of_mem _ h)
    · rw [if_neg h1] at hx
      by_cases h2 : 10 ≤ (acc ++ [c]).length
      · rw [if_pos h2] at hx
        exact push hx
      · rw [if_neg h2] at hx
        rcases bestFill_subset cs (acc ++ [c]) x hx with h | h
        · exact push h
        · exact Or.inr (List.mem_cons_of_mem _ h)

theorem gatePipeline_subset (kws acrs : List (List Char)) (similar : List RChunk) :
    ∀ x ∈ gatePipeline kws acrs similar, x ∈ similar := by
  intro x hx
  have hgate : ∀ y ∈ gateLoop kws acrs similar [], y ∈ similar := by
    intro y hy
    rcases gateLoop_subset kws acrs similar [] y hy with h | h
    · simp at h
    · exact h
  have hbk : ∀ y ∈ backfillKw kws (similar.take 15) (gateLoop kws acrs similar []),
      y ∈ similar := by
    intro y hy
    rcases backfillKw_subset kws (similar.take 15) _ y hy with h | h
    · exact hgate y h
    · exact List.take_subset 15 similar h
  simp only [gatePipeline] at hx
  have hx2 := List.take_subset 30 _ hx
  split at hx2
  · split at hx2
    · rcases bestFill_subset similar _ x hx2 with h | h
      · exact hbk x h
      · exact h
    · exact hbk x hx2
  · exact hgate x hx2

theorem goodChunks_far (similar : List RChunk)
    (h : ∀ c ∈ similar, fallbackThreshold ≤ c.distance) : goodChunks similar = [] := by
  have h12 : similar.filter (fun c => decide (c.distance < primaryThreshold)) = [] := by
    rw [List.filter_eq_nil_iff]
    intro c hc
    simp only [decide_eq_true_eq]
    intro hlt
    exact absurd
      (lt_of_lt_of_le hlt (by decide : primaryThreshold ≤ fallbackThreshold))
      (not_lt.mpr (h c hc))
  have h18 : similar.filter (fun c => decide (c.distance < fallbackThreshold)) = [] := by
    rw [List.filter_eq_nil_iff]
    intro c hc
    simp only [decide_eq_true_eq]
    exact not_lt.mpr (h c hc)
  unfold goodChunks
  rw [h12, if_pos rfl, h18]

theorem thresholdStage_far (prompt : List Char) (similar : List RChunk)
    (h : ∀ c ∈ similar, fallbackThreshold ≤ c.distance) :
    thresholdStage prompt similar = none ∨ thresholdStage prompt similar = some [] := by
  unfold thresholdStage
  by_cases hs : similar = []
  · rw [if_pos hs]
    exact Or.inr rfl
  · rw [if_neg hs]
    have hg := goodChunks_far similar h
    by_cases hgen : isGeneralQuestion prompt = false
    · rw [if_pos ⟨hg, hgen⟩]
      exact Or.inl rfl
    · rw [if_neg (fun hh => hgen hh.2), hg]
      exact Or.inr rfl

theorem queryOutcome_far (prompt : List Char) (similar : List RChunk)
    (h : ∀ c ∈ similar, fallbackThreshold ≤ c.distance) :
    queryOutcome prompt similar = QueryOutcome.refusedLowConfidence ∨
      queryOutcome prompt similar = QueryOutcome.noRelevantInfo := by
  unfold queryOutcome
  rcases thresholdStage_far prompt similar h with hts | hts
  · rw [hts]
    exact Or.inl rfl
  · rw [hts]
    exact Or.inr rfl

/-- C1 (confirmed): when every candidate has distance at least 1.8, the
query pipeline ends in a refusal — either the early-return warning of the
specific-question branch or the canned no-relevant-information response —
and generate_rag_response is never invoked (no `answered` outcome). -/

theorem refusal_property (prompt : List Char) (cands : List RChunk)
    (h : ∀ c ∈ cands, fallbackThreshold ≤ c.distance) :
    chatQueryOutcome prompt cands = QueryOutcome.refusedLowConfidence ∨
      chatQueryOutcome prompt cands = QueryOutcome.noRelevantInfo := by
  unfold chatQueryOutcome
  by_cases hk : questionKeywords prompt = []
  · rw [if_pos hk]
    exact queryOutcome_far prompt cands h
  · rw [if_neg hk]
    exact queryOutcome_far prompt _
      (fun c hc => h c (gatePipeline_subset (questionKeywords prompt) (acronymsOf prompt) cands c hc))

theorem refusal_property_witness :
    (∀ c ∈ [sampleB], fallbackThreshold ≤ c.distance) ∧
      (chatQueryOutcome ("what is a tb".toList) [sampleB] = QueryOutcome.refusedLowConfidence ∨
        chatQueryOutcome ("what is a tb".toList) [sampleB] = QueryOutcome.noRelevantInfo) :=
  ⟨by decide, refusal_property ("what is a tb".toList) [sampleB] (by decide)⟩

theorem goodChunks_lt_fallback (similar : List RChunk) :
    ∀ c ∈ goodChunks similar, c.distance < fallbackThreshold := by
  intro c hc
  unfold goodChunks at hc
  split at hc
  · exact of_decide_eq_true (List.mem_filter.mp hc).2
  · exact lt_of_lt_of_le (of_decide_eq_true (List.mem_filter.mp hc).2)
      (by decide : primaryThreshold ≤ fallbackThreshold)

theorem goodChunks_mem (similar : List RChunk) :
    ∀ c ∈ goodChunks similar, c ∈ similar := by
  intro c hc
  unfold goodChunks at hc
  split at hc
  · exact List.mem_of_mem_filter hc
  · exact List.mem_of_mem_filter hc

theorem queryOutcome_answered_far (prompt : List Char) (similar ctx : List RChunk) :
    queryOutcome prompt similar = QueryOutcome.answered ctx →
      ∀ c ∈ ctx, c.distance < fallbackThreshold := by
  unfold queryOutcome
  cases hts : thresholdStage prompt similar with
  | none => intro hq; cases hq
  | some cs =>
    cases cs with
    | nil => intro hq; cases hq
    | cons a l =>
      intro hq c hc
      have hctx : ctx = sortByDistance (a :: l) := (QueryOutcome.answered.inj hq).symm
      have hmem : c ∈ a :: l := by
        rw [hctx] at hc
        exact (List.perm_insertionSort distLE (a :: l)).mem_iff.mp hc
      unfold thresholdStage at hts
      by_cases hs : similar = []
      · rw [if_pos hs] at hts
        simp at hts
      · rw [if_neg hs] at hts
        by_cases hcond : goodChunks similar = [] ∧ isGeneralQuestion prompt = false
        · rw [if_pos hcond] at hts
          cases hts
        · rw [if_neg hcond] at hts
          have hal : a :: l =
              ((goodChunks similar).filter (fun c => decide (50 < c.chunk_text.length))).take 15 :=
            (Option.some.inj hts).symm
          rw [hal] at hmem
          exact goodChunks_lt_fallback similar c
            (List.mem_of_mem_filter (List.take_subset 15 _ hmem))

/-- C2 as amended: every chunk of an answered context has distance below
1.8; and whenever some candidate entering the adaptive-threshold stage has
distance below 1.2, the good-chunk set of that stage is non-empty — the
final filtered output may nevertheless be empty, because the subsequent
minimum-length stage drops every chunk of at most 50 characters (and the
keyword gate may drop sub-1.2 candidates before the threshold stage). -/

theorem filter_threshold_amended (prompt : List Char) (cands : List RChunk) :
    (∀ ctx, chatQueryOutcome prompt cands = QueryOutcome.answered ctx →
        ∀ c ∈ ctx, c.distance < fallbackThreshold) ∧
      ∀ similar : List RChunk,
        (∃ c ∈ similar, c.distance < primaryThreshold) → goodChunks similar ≠ [] := by
  constructor
  · intro ctx hq
    unfold chatQueryOutcome at hq
    by_cases hk : questionKeywords prompt = []
    · rw [if_pos hk] at hq
      exact queryOutcome_answered_far prompt cands ctx hq
    · rw [if_neg hk] at hq
      exact queryOutcome_answered_far prompt _ ctx hq
  · rintro similar ⟨c, hc, hcd⟩ hempty
    have hmem : c ∈ similar.filter (fun c => decide (c.distance < primaryThreshold)) :=
      List.mem_filter.mpr ⟨hc, decide_eq_true hcd⟩
    have hne : similar.filter (fun c => decide (c.distance < primaryThreshold)) ≠ [] :=
      List.ne_nil_of_mem hmem
    unfold goodChunks at hempty
    rw [if_neg hne] at hempty
    exact hne hempty

theorem filter_threshold_amended_witness :
    (∀ ctx, chatQueryOutcome ("what is a tb".toList) [sampleB] = QueryOutcome.answered ctx →
        ∀ c ∈ ctx, c.distance < fallbackThreshold) ∧
      ∀ similar : List RChunk,
        (∃ c ∈ similar, c.distance < primaryThreshold) → goodChunks similar ≠ [] :=
  filter_threshold_amended ("what is a tb".toList) [sampleB]

/-- C2 counterexample: a single candidate of distance 0.5 < 1.2 whose text
has only 5 characters.  The question yields no keywords, so the gate is
skipped; the candidate passes both thresholds but the minimum-length stage
drops it, and the final filtered output is empty: the pipeline produces the
no-relevant-information refusal instead of a non-empty output. -/

theorem filter_nonempty_cex :
    cexShort.distance < primaryThreshold ∧
      chatQueryOutcome ("why?".toList) [cexShort] = QueryOutcome.noRelevantInfo := by
  decide

set_option maxRecDepth 20000 in

/-- C3 counterexample: called with an empty context sequence,
generate_rag_response does not fail — for the concrete question
`what is oracle` it assembles an empty source section and still posts the
complete prompt (intro, instructions, the question and the closing
instruction) to the generation backend. -/

theorem empty_context_cex :
    contextText ("what is oracle".toList) [] = [] ∧
      ollamaRequest ("what is oracle".toList) [] =
        assistantIntro ++ stdModeInstr ++ userQuestionLabel ++
          "what is oracle".toList ++ finalInstr := by
  decide

theorem selectedChunks_nil (question : List Char) : selectedChunks question [] = [] := by
  unfold selectedChunks sortByDistance
  split
  · rfl
  · rfl

/-- C3 as amended: generate_rag_response has no EmptyContext failure; for
every question an empty context sequence yields an empty source section,
and the full prompt containing the literal question is still built and
posted to the generation backend. -/

theorem empty_context_amended (question : List Char) :
    contextText question [] = [] ∧
      ∃ pre post, ollamaRequest question [] = pre ++ (question ++ post) := by
  have hctx : contextText question [] = [] := by
    unfold contextText
    rw [selectedChunks_nil]
    split
    · rfl
    · rfl
  refine ⟨hctx, ?_⟩
  by_cases hm : (isCompleteStepsQuestion question || isSqlQuestion question) = true
  · refine ⟨assistantIntro ++ sqlModeInstr ++ userQuestionLabel, finalInstr, ?_⟩
    simp [ollamaRequest, hctx, hm]
  · refine ⟨assistantIntro ++ stdModeInstr ++ userQuestionLabel, finalInstr, ?_⟩
    simp only [ollamaRequest, hctx, Bool.not_eq_true] at *
    rw [if_neg (by simp [hm])]
    simp

/-- C9 (confirmed): with a non-empty context, a complete-steps/SQL question
embeds up to 7 chunks into the grounding prompt, every SQL-bearing chunk of
the top 7 placed before the non-SQL ones; any other question embeds exactly
the single lowest-distance chunk. -/

theorem synthesizer_mode_context (question : List Char) (context_chunks : List RChunk)
    (hne : context_chunks ≠ []) :
    ((isCompleteStepsQuestion question || isSqlQuestion question) = true →
        contextChunks question context_chunks =
          ((sortByDistance context_chunks).take 7).filter chunkHasSql ++
            ((sortByDistance context_chunks).take 7).filter (fun c => !chunkHasSql c) ∧
          (contextChunks question context_chunks).length ≤ 7) ∧
      ((isCompleteStepsQuestion question || isSqlQuestion question) = false →
        ∃ b rest, sortByDistance context_chunks = b :: rest ∧
          contextChunks question context_chunks = [b] ∧
          ∀ c ∈ context_chunks, b.distance ≤ c.distance) := by
  constructor
  · intro hm
    have hothers :
        ((sortByDistance context_chunks).take 7).filter
            (fun c => decide (c ∉ ((sortByDistance context_chunks).take 7).filter chunkHasSql)) =
          ((sortByDistance context_chunks).take 7).filter (fun c => !chunkHasSql c) := by
      apply List.filter_congr
      intro x hx
      by_cases hsql : chunkHasSql x = true
      · have : x ∈ ((sortByDistance context_chunks).take 7).filter chunkHasSql :=
          List.mem_filter.mpr ⟨hx, hsql⟩
        simp [this, hsql]
      · have : x ∉ ((sortByDistance context_chunks).take 7).filter chunkHasSql := by
          intro hmem
          exact hsql (List.mem_filter.mp hmem).2
        simp [this, hsql]
    have hsel : contextChunks question context_chunks =
        ((sortByDistance context_chunks).take 7).filter chunkHasSql ++
          ((sortByDistance context_chunks).take 7).filter (fun c => !chunkHasSql c) := by
      unfold contextChunks selectedChunks
      rw [if_pos hm, if_pos hm, hothers]
    refine ⟨hsel, ?_⟩
    rw [hsel]
    have hperm := List.filter_append_perm chunkHasSql ((sortByDistance context_chunks).take 7)
    calc (((sortByDistance context_chunks).take 7).filter chunkHasSql ++
            ((sortByDistance context_chunks).take 7).filter (fun c => !chunkHasSql c)).length
        = ((sortByDistance context_chunks).take 7).length := hperm.length_eq
      _ ≤ 7 := by
          rw [List.length_take]
          exact min_le_left _ _
  · intro hm
    have hlen : (sortByDistance context_chunks).length = context_chunks.length :=
      (List.perm_insertionSort distLE context_chunks).length_eq
    cases hsort : sortByDistance context_chunks with
    | nil =>
      rw [hsort] at hlen
      exact absurd (List.length_eq_zero.mp hlen.symm) hne
    | cons b rest =>
      refine ⟨b, rest, rfl, ?_, ?_⟩
      · unfold contextChunks selectedChunks
        rw [if_neg (by simp [hm]), if_neg (by simp [hm]), hsort]
        rfl
      · intro c hc
        have hcs : c ∈ sortByDistance context_chunks :=
          (List.perm_insertionSort distLE context_chunks).symm.mem_iff.mp hc
        rw [hsort] at hcs
        rcases List.mem_cons.mp hcs with rfl | hcs
        · exact le_refl _
        · have hpw : (b :: rest).Pairwise distLE := by
            rw [← hsort]
            exact List.sorted_insertionSort distLE context_chunks
          exact (List.pairwise_cons.mp hpw).1 c hcs

theorem synthesizer_mode_context_witness :
    ([sampleA, sampleB] ≠ ([] : List RChunk)) ∧
      (((isCompleteStepsQuestion ("what is a tb".toList) ||
          isSqlQuestion ("what is a tb".toList)) = true →
        contextChunks ("what is a tb".toList) [sampleA, sampleB] =
          ((sortByDistance [sampleA, sampleB]).take 7).filter chunkHasSql ++
            ((sortByDistance [sampleA, sampleB]).take 7).filter (fun c => !chunkHasSql c) ∧
          (contextChunks ("what is a tb".toList) [sampleA, sampleB]).length ≤ 7) ∧
      ((isCompleteStepsQuestion ("what is a tb".toList) ||
          isSqlQuestion ("what is a tb".toList)) = false →
        ∃ b rest, sortByDistance [sampleA, sampleB] = b :: rest ∧
          contextChunks ("what is a tb".toList) [sampleA, sampleB] = [b] ∧
          ∀ c ∈ [sampleA, sampleB], b.distance ≤ c.distance)) :=
  ⟨by decide, synthesizer_mode_context ("what is a tb".toList) [sampleA, sampleB] (by decide)⟩

/-- C10 (confirmed): an input containing a feedback phrase that neither
starts with a question word nor contains a question mark makes the chat
handler return before retrieval — the history is unchanged and no
embedding, search or generation step is reached. -/

theorem feedback_returns_early (prompt : List Char) (messages : List ChatTurn)
    (hfb : feedbackPhrases.any (fun p => isSubstring p (promptLower prompt)) = true)
    (hqw : questionStartWords.any (fun w => w.isPrefixOf (promptLower prompt)) = false)
    (hqm : prompt.contains '?' = false) :
    chatDispatch prompt messages = (messages, none) := by
  have hq : isQuestionInput prompt = false := by
    unfold isQuestionInput
    rw [hqw, hqm]
    rfl
  have hf : isFeedbackInput prompt = true := by
    simp [isFeedbackInput, hfb, hq]
  simp [chatDispatch, hf]

theorem feedback_returns_early_witness :
    (feedbackPhrases.any
        (fun p => isSubstring p (promptLower ("this is wrong".toList))) = true ∧
      questionStartWords.any
        (fun w => w.isPrefixOf (promptLower ("this is wrong".toList))) = false ∧
      ("this is wrong".toList).contains '?' = false) ∧
      chatDispatch ("this is wrong".toList) [⟨ChatRole.user, "hi".toList⟩] =
        ([⟨ChatRole.user, "hi".toList⟩], none) :=
  ⟨⟨by decide, by decide, by decide⟩,
    feedback_returns_early ("this is wrong".toList) [⟨ChatRole.user, "hi".toList⟩]
      (by decide) (by decide) (by decide)⟩

end LocalRag
